import Mathlib

/-!
Shallow embedding of the retrieval-and-ranking pipeline of the radian-rag-v2
backend: src/backend/app/services/rag.py together with the parts of
src/backend/app/repositories and src/backend/app/core/config.py it consumes.

Modelling conventions:
- Python floats are modelled exactly: rationals for stored data and weights,
  real numbers where math.exp enters a formula (scores); float rounding is
  idealised away since every claim is about the mathematical formulas.
- Python strings are modelled by Lean strings; lowercasing and the regex
  character classes are modelled with ASCII semantics, which agree with the
  Python semantics on the ASCII vocabulary used by the service.
- The external collaborators (database repositories, OpenAI client, uuid,
  datetime formatting and wall-clock) are modelled as a record of
  deterministic functions (Env below), exactly as the specification treats
  them: out-of-scope collaborators.
-/

namespace RadianRag

/-- Chunk record, from the dataclass PatientChunk in
src/backend/app/repositories/patient_chunks.py. -/
structure Chunk where
  chunk_id : String
  document_id : String
  patient_id : String
  file_name : Option String
  page_number : Option Int
  chunk_index : Option Int
  text : Option String
  similarity : Option ℚ := none
deriving DecidableEq

/-- ChatMessage from src/backend/app/models/schemas.py: a role/content pair. -/
structure ChatMessage where
  role : String
  content : String
deriving DecidableEq

/-- SystemContext from src/backend/app/models/schemas.py. -/
structure SystemContext where
  context_mode : String
  patient_scope : String
  reference_time : String
deriving DecidableEq

/-- The subset of app.core.config.Settings that the RAG service reads, with
the defaults of the source (0.25 = 1/4, 0.6 = 3/5, 0.25 = 1/4, 0.15 = 3/20). -/
structure Settings where
  openai_model : String := "google/gemini-3-flash-preview"
  max_retrieval_chunks_chat : Nat := 15
  max_retrieval_chunks_summary : Nat := 8
  min_similarity_score_chat : ℚ := 1/4
  ivfflat_probes : Nat := 10
  rerank_enabled : Bool := true
  rerank_top_n : Nat := 50
  rerank_top_k : Nat := 15
  rerank_similarity_weight : ℚ := 3/5
  rerank_keyword_weight : ℚ := 1/4
  rerank_recency_weight : ℚ := 3/20
deriving DecidableEq

/-! ### Text utilities shared by the scoring and search-decision code -/

/-- Lowercasing, modelling str.lower (ASCII semantics). -/
def lowerStr (s : String) : String := String.mk (s.data.map Char.toLower)

/-- Word character class of the regex escape for word characters (ASCII):
letters, digits and underscore. -/
def isWordChar (c : Char) : Bool := c.isAlphanum || c == '_'

/-- Whitespace character class of the regex escape for whitespace (ASCII). -/
def isSpaceChar (c : Char) : Bool :=
  c == ' ' || c == '\t' || c == '\n' || c == '\r' || c == '\x0b' || c == '\x0c'

/-- Helper for wordRuns: push the pending run (if nonempty) onto the run list. -/
def flushRun (cur : List Char) (runs : List (List Char)) : List (List Char) :=
  if cur = [] then runs else cur :: runs

/-- Maximal runs of word characters of a character list: the matches that
re.findall with the word-boundary word pattern returns in
_calculate_keyword_score (rag.py line 242). -/
def wordRuns (l : List Char) : List (List Char) :=
  let p := l.foldr
    (fun c acc =>
      if isWordChar c then (c :: acc.1, acc.2) else ([], flushRun acc.1 acc.2))
    ([], [])
  flushRun p.1 p.2

/-- Stopword set of _calculate_keyword_score (rag.py lines 239-240). -/
def stopWords : List String :=
  ["the", "a", "an", "and", "or", "but", "in", "on", "at", "to", "for", "of",
   "with", "by", "what", "when", "where", "how", "is", "are", "was", "were",
   "be", "been", "have", "has", "had", "do", "does", "did", "will", "would",
   "could", "should"]

/-- The significant question terms: word tokens of the lowercased question
that are not stopwords and have length > 2 (rag.py line 242). -/
def questionWords (question : String) : List String :=
  ((wordRuns (lowerStr question).data).map fun r => String.mk r).filter
    fun w => decide (w ∉ stopWords) && decide (2 < w.length)

/-- Number of non-overlapping occurrences of w in t scanning from the left
with the pattern length skipped after each hit, modelling str.count.
The skip argument is the number of characters still to be skipped. -/
def countOccsGo (w : List Char) : Nat → List Char → Nat
  | _, [] => 0
  | skip + 1, _ :: rest => countOccsGo w skip rest
  | 0, c :: rest =>
    if w.isPrefixOf (c :: rest) then 1 + countOccsGo w (w.length - 1) rest
    else countOccsGo w 0 rest

/-- Occurrence count modelling str.count; an empty pattern counts
length + 1 times exactly as in Python. -/
def countOccs (w t : List Char) : Nat :=
  if w = [] then t.length + 1 else countOccsGo w 0 t

/-- Numeric core of _calculate_keyword_score (rag.py lines 247-257): the
proportion of matched question terms plus a bonus of at most 3/10 for
occurrences beyond the first hit, capped at 1. -/
def keywordScoreCore (matchCount n totalOccurrences : Nat) : ℚ :=
  min 1 ((matchCount : ℚ) / (n : ℚ)
    + min (3/10) (((totalOccurrences : ℚ) - (matchCount : ℚ)) * (1/10)))

/-- Keyword-matching score between a chunk and a question:
_calculate_keyword_score (rag.py lines 227-257). A falsy text (absent or
empty) scores 0; a question with no significant term scores 0; otherwise the
capped proportion-plus-bonus formula over the lowercased texts. -/
def keywordScore (chunk : Chunk) (question : String) : ℚ :=
  if chunk.text = none ∨ chunk.text = some "" then 0
  else if questionWords question = [] then 0
  else
    keywordScoreCore
      ((questionWords question).countP fun w =>
        decide (w.data <:+: (lowerStr (chunk.text.getD "")).data))
      (questionWords question).length
      (((questionWords question).map fun w =>
        countOccs w.data (lowerStr (chunk.text.getD "")).data).sum)

/-! ### Helper lemmas about occurrence counts -/

theorem countOccsGo_pos (w : List Char) (hw : w ≠ []) :
    ∀ t : List Char, w <:+: t → 1 ≤ countOccsGo w 0 t := by
  intro t
  induction t with
  | nil =>
    intro h
    exact absurd (List.infix_nil.mp h) hw
  | cons c rest ih =>
    intro h
    rcases List.infix_cons_iff.mp h with hpre | hinf
    · have hb : w.isPrefixOf (c :: rest) = true := by
        rw [List.isPrefixOf_iff_prefix]; exact hpre
      simp only [countOccsGo, hb, if_true]
      omega
    · by_cases hb : w.isPrefixOf (c :: rest) = true
      · simp only [countOccsGo, hb, if_true]; omega
      · simp only [countOccsGo, hb, if_false]
        exact ih hinf

theorem countOccs_pos_of_infix (w t : List Char) (hw : w ≠ []) (h : w <:+: t) :
    1 ≤ countOccs w t := by
  unfold countOccs
  rw [if_neg hw]
  exact countOccsGo_pos w hw t h

/-- The number of matched significant terms never exceeds the total number of
occurrences, provided every term is nonempty. -/
theorem countP_le_sum_countOccs (t : List Char) :
    ∀ qws : List String, (∀ w ∈ qws, w.data ≠ []) →
      (qws.countP fun w => decide (w.data <:+: t))
        ≤ ((qws.map fun w => countOccs w.data t).sum) := by
  intro qws
  induction qws with
  | nil => intro _; simp
  | cons w ws ih =>
    intro h
    have hw : w.data ≠ [] := h w (List.mem_cons_self w ws)
    have hws : ∀ v ∈ ws, v.data ≠ [] := fun v hv => h v (List.mem_cons_of_mem w hv)
    have h2 := ih hws
    rw [List.countP_cons, List.map_cons, List.sum_cons]
    by_cases hin : w.data <:+: t
    · have h1 : 1 ≤ countOccs w.data t := countOccs_pos_of_infix w.data t hw hin
      simp only [hin, decide_true_eq_true]
      simp [hin]
      omega
    · simp [hin]
      omega

theorem questionWords_nonempty_data (q : String) :
    ∀ w ∈ questionWords q, w.data ≠ [] := by
  intro w hw
  unfold questionWords at hw
  have h2 := (List.mem_filter.mp hw).2
  have hlen : 2 < w.length := by
    have := (Bool.and_eq_true _ _).mp h2
    exact of_decide_eq_true this.2
  intro hnil
  have : w.length = 0 := by
    have hd : w.data.length = 0 := by rw [hnil]; rfl
    exact hd
  omega

theorem keywordScoreCore_bounds (m n tot : Nat) (hmt : m ≤ tot) :
    0 ≤ keywordScoreCore m n tot ∧ keywordScoreCore m n tot ≤ 1 := by
  unfold keywordScoreCore
  constructor
  · apply le_min
    · norm_num
    · have hb : (0:ℚ) ≤ (m:ℚ) / (n:ℚ) := by positivity
      have hmt2 : (m:ℚ) ≤ (tot:ℚ) := by exact_mod_cast hmt
      have hc : (0:ℚ) ≤ ((tot:ℚ) - (m:ℚ)) * (1/10) := by nlinarith
      have hmin : (0:ℚ) ≤ min (3/10) (((tot:ℚ) - (m:ℚ)) * (1/10)) :=
        le_min (by norm_num) hc
      linarith
  · exact min_le_left _ _

/-- Sample chunk used to show that a keyword score of 1 is achieved. -/
def glucoseChunk : Chunk :=
  { chunk_id := "k1", document_id := "d1", patient_id := "p1",
    file_name := none, page_number := none, chunk_index := none,
    text := some "glucose" }

/-- C6: for every chunk and question the keyword score is 0 when the chunk has
no text, always lies in [0, 1] (fraction of matched significant terms plus an
occurrence bonus of at most 3/10, capped at 1), and the value 1 is achieved at
a concrete chunk/question pair. -/
theorem keyword_score_range_and_achieves_one :
    (∀ (chunk : Chunk) (question : String),
      (chunk.text = none → keywordScore chunk question = 0)
        ∧ 0 ≤ keywordScore chunk question
        ∧ keywordScore chunk question ≤ 1)
    ∧ keywordScore glucoseChunk "glucose" = 1 := by
  constructor
  · intro chunk question
    refine ⟨?_, ?_⟩
    · intro h
      unfold keywordScore
      rw [if_pos (Or.inl h)]
    · unfold keywordScore
      by_cases h1 : chunk.text = none ∨ chunk.text = some ""
      · rw [if_pos h1]
        norm_num
      · rw [if_neg h1]
        by_cases h2 : questionWords question = []
        · rw [if_pos h2]
          norm_num
        · rw [if_neg h2]
          exact keywordScoreCore_bounds _ _ _
            (countP_le_sum_countOccs _ _ (questionWords_nonempty_data question))
  · have hqw : questionWords "glucose" = ["glucose"] := by decide
    have hcp : (["glucose"] : List String).countP
        (fun w => decide (w.data <:+: (lowerStr ((glucoseChunk.text).getD "")).data)) = 1 := by
      decide
    have hsum : ((["glucose"] : List String).map fun w =>
        countOccs w.data (lowerStr ((glucoseChunk.text).getD "")).data).sum = 1 := by
      decide
    have hne : ¬(glucoseChunk.text = none ∨ glucoseChunk.text = some "") := by decide
    have hne2 : questionWords "glucose" ≠ [] := by rw [hqw]; decide
    unfold keywordScore
    rw [if_neg hne, if_neg hne2, hqw, hcp, hsum]
    unfold keywordScoreCore
    norm_num

/-- The witness for C6 instantiates the inner implication at a textless chunk. -/
def noTextChunk : Chunk :=
  { chunk_id := "k0", document_id := "d0", patient_id := "p0",
    file_name := none, page_number := none, chunk_index := none,
    text := none }

theorem keyword_score_range_witness :
    keywordScore noTextChunk "glucose" = 0
      ∧ 0 ≤ keywordScore glucoseChunk "level"
      ∧ keywordScore glucoseChunk "level" ≤ 1 :=
  ⟨(keyword_score_range_and_achieves_one.1 noTextChunk "glucose").1 rfl,
   (keyword_score_range_and_achieves_one.1 glucoseChunk "level").2.1,
   (keyword_score_range_and_achieves_one.1 glucoseChunk "level").2.2⟩

/-- C10: the keyword score is 0 for every chunk, text or no text, whenever
every word token of the lowercased question is a stopword or has length at
most 2, because the significant-term list is then empty. -/
theorem keyword_score_zero_of_no_significant_term
    (chunk : Chunk) (question : String)
    (h : ∀ w ∈ (wordRuns (lowerStr question).data).map (fun r => String.mk r),
      w ∈ stopWords ∨ w.length ≤ 2) :
    keywordScore chunk question = 0 := by
  have hqw : questionWords question = [] := by
    unfold questionWords
    rw [List.filter_eq_nil_iff]
    intro w hw
    rcases h w hw with hstop | hshort
    · simp [hstop]
    · have : ¬(2 < w.length) := by omega
      simp [this]
  unfold keywordScore
  by_cases h1 : chunk.text = none ∨ chunk.text = some ""
  · rw [if_pos h1]
  · rw [if_neg h1, if_pos hqw]

theorem keyword_score_zero_of_no_significant_term_witness :
    keywordScore glucoseChunk "what is the" = 0 :=
  keyword_score_zero_of_no_significant_term glucoseChunk "what is the" (by decide)

/-! ### Recency score (rag.py lines 259-277) -/

/-- Recency score of a chunk relative to a candidate list:
_calculate_recency_score. The position is recovered with list.index, i.e. the
index of the first occurrence under equality; a chunk absent from the list
falls back to 1/2 through the caught ValueError. A single-element list (max
index 0) scores 1; otherwise exponential decay in the index, floored at 1/10. -/
noncomputable def recencyScore (chunks : List Chunk) (chunk : Chunk) : ℝ :=
  if chunk ∈ chunks then
    if chunks.length - 1 = 0 then 1
    else max (1/10)
      (Real.exp (-(List.indexOf chunk chunks : ℝ) / ((chunks.length - 1 : Nat) : ℝ) * 2))
  else 1/2

theorem recencyScore_get (chunks : List Chunk) (hnd : chunks.Nodup)
    (i : Fin chunks.length) :
    recencyScore chunks (chunks.get i)
      = if chunks.length - 1 = 0 then 1
        else max (1/10)
          (Real.exp (-(i.val : ℝ) / ((chunks.length - 1 : Nat) : ℝ) * 2)) := by
  unfold recencyScore
  have hmem : chunks.get i ∈ chunks := by
    cases i with
    | mk v hv => exact List.get_mem chunks v hv
  rw [if_pos hmem, List.get_indexOf hnd i]

theorem exp_decay_le_one (a c : ℝ) (ha : 0 ≤ a) (hc : 0 ≤ c) :
    Real.exp (-a / c * 2) ≤ 1 := by
  rw [Real.exp_le_one_iff]
  have h1 : 0 ≤ a / c := div_nonneg ha hc
  have : -a / c = -(a / c) := by ring
  rw [this]
  linarith

/-- C5, amended: for a duplicate-free candidate list (so that the position of
a chunk is the index list.index recovers) the recency score of the chunk in
position i equals max(1/10, exp(-2 i/(n-1))) when n > 1, lies in [1/10, 1],
is non-increasing in the position, is exactly 1 at position 0, and is exactly
1 for a single-element list. -/
theorem recency_score_position_decay (chunks : List Chunk) (hnd : chunks.Nodup)
    (i : Fin chunks.length) :
    (1 < chunks.length →
      recencyScore chunks (chunks.get i)
        = max (1/10) (Real.exp (-2 * (i.val : ℝ) / ((chunks.length : ℝ) - 1))))
    ∧ (1/10 : ℝ) ≤ recencyScore chunks (chunks.get i)
    ∧ recencyScore chunks (chunks.get i) ≤ 1
    ∧ (∀ j : Fin chunks.length, i.val ≤ j.val →
        recencyScore chunks (chunks.get j) ≤ recencyScore chunks (chunks.get i))
    ∧ (i.val = 0 → recencyScore chunks (chunks.get i) = 1)
    ∧ (chunks.length = 1 → recencyScore chunks (chunks.get i) = 1) := by
  have hpos : 0 < chunks.length := i.pos
  by_cases hone : chunks.length - 1 = 0
  · have hlen : chunks.length = 1 := by omega
    have hi0 : i.val = 0 := by have := i.isLt; omega
    have hval : ∀ k : Fin chunks.length, recencyScore chunks (chunks.get k) = 1 := by
      intro k
      rw [recencyScore_get chunks hnd k, if_pos hone]
    refine ⟨?_, ?_, ?_, ?_, ?_, ?_⟩
    · intro h; omega
    · rw [hval i]; norm_num
    · rw [hval i]
    · intro j _; rw [hval i, hval j]
    · intro _; exact hval i
    · intro _; exact hval i
  · have hlen : 1 < chunks.length := by omega
    have hcast : ((chunks.length - 1 : Nat) : ℝ) = (chunks.length : ℝ) - 1 := by
      have h1 : 1 ≤ chunks.length := by omega
      push_cast [Nat.cast_sub h1]
      ring
    have hcpos : (0:ℝ) < ((chunks.length - 1 : Nat) : ℝ) := by
      have : 0 < chunks.length - 1 := by omega
      exact_mod_cast this
    have hval : ∀ k : Fin chunks.length, recencyScore chunks (chunks.get k)
        = max (1/10) (Real.exp (-(k.val : ℝ) / ((chunks.length - 1 : Nat) : ℝ) * 2)) := by
      intro k
      rw [recencyScore_get chunks hnd k, if_neg hone]
    refine ⟨?_, ?_, ?_, ?_, ?_, ?_⟩
    · intro _
      rw [hval i, hcast]
      congr 1
      congr 1
      ring
    · rw [hval i]; exact le_max_left _ _
    · rw [hval i]
      apply max_le
      · norm_num
      · exact exp_decay_le_one _ _ (by positivity) (le_of_lt hcpos)
    · intro j hij
      rw [hval i, hval j]
      apply max_le_max le_rfl
      rw [Real.exp_le_exp]
      have hij2 : (i.val : ℝ) ≤ (j.val : ℝ) := by exact_mod_cast hij
      have hdiv : (i.val : ℝ) / ((chunks.length - 1 : Nat) : ℝ)
          ≤ (j.val : ℝ) / ((chunks.length - 1 : Nat) : ℝ) :=
        (div_le_div_iff_of_pos_right hcpos).mpr hij2
      have hneg : -(j.val : ℝ) / ((chunks.length - 1 : Nat) : ℝ)
          ≤ -(i.val : ℝ) / ((chunks.length - 1 : Nat) : ℝ) := by
        rw [neg_div, neg_div]
        linarith
      nlinarith
    · intro hi0
      rw [hval i, hi0]
      norm_num
    · intro h; omega

/-- Chunk used in the C5 counterexample (the list holds it twice). -/
def dupChunk : Chunk :=
  { chunk_id := "dup", document_id := "d", patient_id := "p",
    file_name := none, page_number := none, chunk_index := none,
    text := some "x" }

/-- C5 counterexample: in the two-element list [dupChunk, dupChunk] the chunk
sitting at position index 1 is dupChunk, whose score is computed from the
index of its first occurrence (0) and equals 1 - not the claimed
max(1/10, exp(-2*1/(2-1))), which is strictly below 1. -/
theorem recency_score_duplicate_counterexample :
    [dupChunk, dupChunk].get ⟨1, by decide⟩ = dupChunk
      ∧ recencyScore [dupChunk, dupChunk] dupChunk
          ≠ max (1/10) (Real.exp (-2 * 1 / ((2:ℝ) - 1))) := by
  refine ⟨rfl, ?_⟩
  have h1 : recencyScore [dupChunk, dupChunk] dupChunk = 1 := by
    unfold recencyScore
    rw [if_pos (by decide : dupChunk ∈ [dupChunk, dupChunk])]
    rw [if_neg (by decide : ¬(([dupChunk, dupChunk] : List Chunk).length - 1 = 0))]
    have hidx : List.indexOf dupChunk [dupChunk, dupChunk] = 0 := by decide
    rw [hidx]
    norm_num
  rw [h1]
  have harg : (-2 * 1 / ((2:ℝ) - 1)) = -2 := by norm_num
  rw [harg]
  have hexp : Real.exp (-2) < 1 := Real.exp_lt_one_iff.mpr (by norm_num)
  have hlt : max (1/10) (Real.exp (-2)) < 1 := max_lt (by norm_num) hexp
  exact (ne_of_gt hlt)

/-- The witness for the amended C5 applies it to a concrete duplicate-free
two-element list at position 0. -/
def chunkA : Chunk :=
  { chunk_id := "a", document_id := "d", patient_id := "p",
    file_name := none, page_number := none, chunk_index := none,
    text := some "alpha" }

def chunkB : Chunk :=
  { chunk_id := "b", document_id := "d", patient_id := "p",
    file_name := none, page_number := none, chunk_index := none,
    text := some "beta" }

theorem recency_score_position_decay_witness :
    recencyScore [chunkA, chunkB] ([chunkA, chunkB].get ⟨0, by decide⟩) = 1
      ∧ recencyScore [chunkA, chunkB] ([chunkA, chunkB].get ⟨1, by decide⟩)
          ≤ recencyScore [chunkA, chunkB] ([chunkA, chunkB].get ⟨0, by decide⟩) :=
  ⟨(recency_score_position_decay [chunkA, chunkB] (by decide) ⟨0, by decide⟩).2.2.2.2.1 rfl,
   (recency_score_position_decay [chunkA, chunkB] (by decide) ⟨0, by decide⟩).2.2.2.1
     ⟨1, by decide⟩ (by decide)⟩

/-! ### Re-ranking (rag.py lines 279-347) -/

/-- Composite relevance score of one chunk during re-ranking (rag.py lines
302-334): weighted blend of the clamped vector similarity (or, for chunks
without similarity, the keyword score scaled by 4/5 as proxy), the keyword
score and the recency score. -/
noncomputable def compositeScore (S : Settings) (chunks : List Chunk)
    (question : String) (chunk : Chunk) : ℝ :=
  let similarity_score : ℚ := max 0 (min 1 (chunk.similarity.getD 0))
  let keyword_score : ℚ := keywordScore chunk question
  let recency_score : ℝ := recencyScore chunks chunk
  match chunk.similarity with
  | none =>
      (S.rerank_similarity_weight : ℝ) * ((keyword_score * (4/5) : ℚ) : ℝ)
        + (S.rerank_keyword_weight : ℝ) * (keyword_score : ℝ)
        + (S.rerank_recency_weight : ℝ) * recency_score
  | some _ =>
      (S.rerank_similarity_weight : ℝ) * ((similarity_score : ℚ) : ℝ)
        + (S.rerank_keyword_weight : ℝ) * (keyword_score : ℝ)
        + (S.rerank_recency_weight : ℝ) * recency_score

/-- Re-ranking of a candidate list: _rerank_chunks (rag.py lines 279-347).
An empty list or disabled re-ranking short-circuits to a plain truncation; a
list of at most top_k chunks is returned unchanged; otherwise the chunks are
scored, sorted stably by descending composite score (list.sort with
reverse=True) and the first top_k are kept. -/
noncomputable def rerankChunks (S : Settings) (chunks : List Chunk)
    (question : String) (top_k : Nat) : List Chunk :=
  if chunks = [] ∨ S.rerank_enabled = false then
    if chunks = [] then [] else chunks.take top_k
  else if chunks.length ≤ top_k then chunks
  else
    let scored := chunks.map fun c => (compositeScore S chunks question c, c)
    ((scored.mergeSort fun a b => decide (b.1 ≤ a.1)).take top_k).map fun p => p.2

/-- Settings with re-ranking disabled, used in the C1 counterexample. -/
def disabledSettings : Settings := { rerank_enabled := false }

/-- Settings with the source defaults. -/
def defaultSettings : Settings := {}

/-- C1 counterexample: with re-ranking disabled and an input longer than
top_k, _rerank_chunks does not return the input unchanged - it truncates. -/
theorem rerank_disabled_oversized_counterexample :
    rerankChunks disabledSettings [chunkA, chunkB] "q" 1 ≠ [chunkA, chunkB] := by
  have h : rerankChunks disabledSettings [chunkA, chunkB] "q" 1 = [chunkA] := by
    unfold rerankChunks
    rw [if_pos (show ([chunkA, chunkB] : List Chunk) = []
      ∨ disabledSettings.rerank_enabled = false from Or.inr rfl)]
    rw [if_neg (show ¬([chunkA, chunkB] : List Chunk) = [] by decide)]
    rfl
  rw [h]
  decide

/-- C1, amended: re-ranking never returns more than top_k chunks; it returns
the input unchanged (order included) whenever the input has at most top_k
chunks; and when re-ranking is disabled it returns the first top_k input
chunks in input order (the whole input when it is not oversized). -/
theorem rerank_size_and_identity (S : Settings) (chunks : List Chunk)
    (question : String) (top_k : Nat) :
    (rerankChunks S chunks question top_k).length ≤ top_k
    ∧ (chunks.length ≤ top_k → rerankChunks S chunks question top_k = chunks)
    ∧ (S.rerank_enabled = false →
        rerankChunks S chunks question top_k = chunks.take top_k) := by
  by_cases hd : chunks = [] ∨ S.rerank_enabled = false
  · unfold rerankChunks
    rw [if_pos hd]
    by_cases hnil : chunks = []
    · rw [if_pos hnil]
      subst hnil
      exact ⟨by simp, fun _ => rfl, fun _ => by simp⟩
    · rw [if_neg hnil]
      exact ⟨List.length_take_le _ _, fun hle => List.take_of_length_le hle,
        fun _ => rfl⟩
  · push_neg at hd
    unfold rerankChunks
    rw [if_neg (by tauto)]
    by_cases hlen : chunks.length ≤ top_k
    · rw [if_pos hlen]
      exact ⟨hlen, fun _ => rfl, fun hfalse => absurd hfalse hd.2⟩
    · rw [if_neg hlen]
      refine ⟨?_, fun h => absurd h hlen, fun hfalse => absurd hfalse hd.2⟩
      calc ((((chunks.map fun c => (compositeScore S chunks question c, c)).mergeSort
                fun a b => decide (b.1 ≤ a.1)).take top_k).map fun p => p.2).length
          = (((chunks.map fun c => (compositeScore S chunks question c, c)).mergeSort
                fun a b => decide (b.1 ≤ a.1)).take top_k).length := List.length_map _ _
        _ ≤ top_k := List.length_take_le _ _

theorem rerank_size_and_identity_witness :
    (rerankChunks defaultSettings [chunkA] "q" 5).length ≤ 5
      ∧ rerankChunks defaultSettings [chunkA] "q" 5 = [chunkA]
      ∧ rerankChunks disabledSettings [chunkA, chunkB] "q" 1
          = [chunkA, chunkB].take 1 :=
  ⟨(rerank_size_and_identity defaultSettings [chunkA] "q" 5).1,
   (rerank_size_and_identity defaultSettings [chunkA] "q" 5).2.1 (by decide),
   (rerank_size_and_identity disabledSettings [chunkA, chunkB] "q" 1).2.2 rfl⟩

/-! ### Context assembly (rag.py lines 1035-1090) -/

/-- Suffix test on strings via character lists (str.endswith). -/
def strEndsWith (s post : String) : Bool := decide (post.data <:+ s.data)

/-- True when the chunk text is present and not blank: the chunks that
_format_chunks keeps (the source skips a chunk when the text is falsy or
strips to the empty string, rag.py line 1040). -/
def hasRealText (chunk : Chunk) : Bool :=
  match chunk.text with
  | none => false
  | some t => !(t.data.all isSpaceChar)

/-- File-name cleanup of _format_chunks (rag.py lines 1044-1048): rsplit at
the last dot when the name ends in a recognized document extension. -/
def stripDocExtension (name : String) : String :=
  if strEndsWith name ".docx" then String.mk (name.data.take (name.data.length - 5))
  else if strEndsWith name ".pdf" || strEndsWith name ".txt" || strEndsWith name ".doc" then
    String.mk (name.data.take (name.data.length - 4))
  else name

/-- Label of a context block: file name when truthy, else document id
(rag.py lines 1043-1051). -/
def formatBlockLabel (chunk : Chunk) : String :=
  if chunk.file_name = none ∨ chunk.file_name = some "" then
    "Document: " ++ chunk.document_id
  else
    "Document: " ++ stripDocExtension (chunk.file_name.getD "")

/-- Block header: the label plus the optional page marker (rag.py lines
1052-1053). -/
def formatBlockHeader (chunk : Chunk) : String :=
  match chunk.page_number with
  | some p => formatBlockLabel chunk ++ " (page " ++ toString p ++ ")"
  | none => formatBlockLabel chunk

/-- One formatted context block (rag.py line 1054). -/
def formatBlock (chunk : Chunk) : String :=
  formatBlockHeader chunk ++ ":\n" ++ chunk.text.getD ""

/-- Separator join with str.join semantics. -/
def joinSep (sep : String) : List String → String
  | [] => ""
  | [x] => x
  | x :: y :: rest => x ++ sep ++ joinSep sep (y :: rest)

/-- Sentinel returned by _format_chunks for an empty formatted list. -/
def noContextSentinel : String := "No patient context available."

/-- Context assembly: _format_chunks (rag.py lines 1035-1055). The loop with
its continue statement is the filter; blocks are joined by a blank line. -/
def formatChunks (chunks : List Chunk) : String :=
  if (chunks.filter hasRealText).map formatBlock = [] then noContextSentinel
  else joinSep "\n\n" ((chunks.filter hasRealText).map formatBlock)

theorem formatBlock_starts_with_document (c : Chunk) :
    "Document: ".data <+: (formatBlock c).data := by
  unfold formatBlock formatBlockHeader formatBlockLabel
  by_cases h1 : c.file_name = none ∨ c.file_name = some ""
  · cases hp : c.page_number with
    | none =>
      simp only [h1, if_true, String.data_append, List.append_assoc]
      exact List.prefix_append _ _
    | some p =>
      simp only [h1, if_true, String.data_append, List.append_assoc]
      exact List.prefix_append _ _
  · cases hp : c.page_number with
    | none =>
      simp only [h1, if_false, String.data_append, List.append_assoc]
      exact List.prefix_append _ _
    | some p =>
      simp only [h1, if_false, String.data_append, List.append_assoc]
      exact List.prefix_append _ _

theorem joinSep_cons_starts (sep x : String) (rest : List String) :
    x.data <+: (joinSep sep (x :: rest)).data := by
  cases rest with
  | nil => exact List.prefix_rfl
  | cons y r =>
    show x.data <+: (x ++ sep ++ joinSep sep (y :: r)).data
    simp only [String.data_append, List.append_assoc]
    exact List.prefix_append _ _

/-- C4: context assembly ignores exactly the chunks with absent or blank
text, and produces the fixed sentinel (a nonempty string) precisely when no
chunk with real text remains. -/
theorem format_chunks_excludes_blank_and_sentinel_iff (chunks : List Chunk) :
    formatChunks chunks = formatChunks (chunks.filter hasRealText)
    ∧ (formatChunks chunks = noContextSentinel ↔ chunks.filter hasRealText = [])
    ∧ noContextSentinel ≠ "" := by
  refine ⟨?_, ⟨?_, ?_⟩, by decide⟩
  · unfold formatChunks
    rw [List.filter_filter]
    simp
  · intro h
    by_contra hne
    obtain ⟨c, rest, hcr⟩ : ∃ c rest, chunks.filter hasRealText = c :: rest := by
      cases hf : chunks.filter hasRealText with
      | nil => exact absurd hf hne
      | cons c rest => exact ⟨c, rest, rfl⟩
    unfold formatChunks at h
    rw [hcr] at h
    rw [if_neg (by simp)] at h
    have hpre : "Document: ".data
        <+: (joinSep "\n\n" (List.map formatBlock (c :: rest))).data := by
      rw [List.map_cons]
      exact (formatBlock_starts_with_document c).trans (joinSep_cons_starts _ _ _)
    rw [h] at hpre
    exact absurd hpre (by decide)
  · intro h
    unfold formatChunks
    rw [h]
    simp

/-! ### Hybrid search decision and lab keyword extraction (rag.py lines 173-225) -/

/-- Word-boundary check after a match: satisfied at end of input or before a
non-word character. -/
def wordBoundaryOk (l : List Char) : Bool :=
  match l with
  | [] => true
  | c :: _ => !isWordChar c

/-- Attempt to match one lab pattern at the current position: the literal
base term, an optional plural s (matched greedily, with regex backtracking:
if the s is present but not followed by a boundary, the bare base cannot
match either because the s itself is a word character), and a trailing word
boundary. The leading boundary is checked by the caller. -/
def labMatchAt (base : List Char) (optS : Bool) (s : List Char) : Option (List Char) :=
  if base.isPrefixOf s then
    match optS, s.drop base.length with
    | true, 's' :: rest2 =>
      if wordBoundaryOk rest2 then some (base ++ ['s']) else none
    | _, rest =>
      if wordBoundaryOk rest then some base else none
  else none

/-- Leftmost search of one lab pattern, tracking whether the previous
character is a word character so that the leading word boundary of the
pattern is honoured. -/
def labSearchFrom (base : List Char) (optS : Bool) : Bool → List Char → Option (List Char)
  | _, [] => none
  | prevWord, c :: rest =>
    match (if prevWord then none else labMatchAt base optS (c :: rest)) with
    | some m => some m
    | none => labSearchFrom base optS (isWordChar c) rest

/-- Search a lab pattern in an already-lowercased question (re.search). -/
def labSearch (base : String) (optS : Bool) (lowerQuestion : List Char) : Option String :=
  (labSearchFrom base.data optS false lowerQuestion).map fun m => String.mk m

/-- The fixed pattern vocabulary of _extract_lab_keywords (rag.py lines
182-200) in source order; the flag marks the patterns carrying an optional
plural s. -/
def labPatterns : List (String × Bool) :=
  [("triglyceride", true), ("cholesterol", false), ("glucose", false),
   ("hba1c", false), ("creatinine", false), ("hemoglobin", false),
   ("platelet", true), ("wbc", false), ("rbc", false), ("lipid", true),
   ("ldl", false), ("hdl", false), ("bp", false), ("blood pressure", false),
   ("bmi", false), ("weight", false), ("height", false)]

/-- Whitespace strip (str.strip). Matched lab keywords never carry
surrounding whitespace, so this is the identity on them; kept for fidelity
with match.group(0).strip(). -/
def stripStr (s : String) : String :=
  String.mk (((s.data.dropWhile isSpaceChar).reverse.dropWhile isSpaceChar).reverse)

/-- Candidates contributed by one pattern (rag.py lines 202-209): the
stripped match, preceded by its singular form when the match ends in s and
is longer than 3 characters. -/
def labKeywordsFor (q : List Char) (p : String × Bool) : List String :=
  match labSearch p.1 p.2 q with
  | none => []
  | some m =>
    let keyword := stripStr m
    (if strEndsWith keyword "s" && decide (3 < keyword.length) then
      [String.mk keyword.data.dropLast]
    else []) ++ [keyword]

/-- Deduplication keeping first occurrences. The source applies list(set(...)),
whose iteration order is unspecified; every use of the result is
order-insensitive (membership, and a maximum by length), so the embedding
fixes the first-seen order. -/
def dedupKeepFirst (l : List String) : List String :=
  l.foldl (fun acc x => if x ∈ acc then acc else acc ++ [x]) []

/-- Lab keyword extraction: _extract_lab_keywords (rag.py lines 173-211). -/
def extractLabKeywords (question : String) : List String :=
  dedupKeepFirst ((labPatterns.map (labKeywordsFor (lowerStr question).data)).flatten)

theorem mem_foldl_dedup (l : List String) :
    ∀ (acc : List String) (x : String),
      (x ∈ l.foldl (fun acc x => if x ∈ acc then acc else acc ++ [x]) acc
        ↔ x ∈ acc ∨ x ∈ l) := by
  induction l with
  | nil => simp
  | cons y ys ih =>
    intro acc x
    simp only [List.foldl_cons]
    by_cases hy : y ∈ acc
    · rw [if_pos hy, ih]
      constructor
      · rintro (h | h)
        · exact Or.inl h
        · exact Or.inr (List.mem_cons_of_mem _ h)
      · rintro (h | h)
        · exact Or.inl h
        · rcases List.mem_cons.mp h with rfl | h2
          · exact Or.inl hy
          · exact Or.inr h2
    · rw [if_neg hy, ih]
      constructor
      · rintro (h | h)
        · rcases List.mem_append.mp h with h1 | h1
          · exact Or.inl h1
          · rcases List.mem_singleton.mp h1 with rfl
            exact Or.inr (List.mem_cons_self _ _)
        · exact Or.inr (List.mem_cons_of_mem _ h)
      · rintro (h | h)
        · exact Or.inl (List.mem_append_left _ h)
        · rcases List.mem_cons.mp h with rfl | h2
          · exact Or.inl (List.mem_append_right _ (by simp))
          · exact Or.inr h2

theorem mem_dedupKeepFirst (l : List String) (x : String) :
    x ∈ dedupKeepFirst l ↔ x ∈ l := by
  unfold dedupKeepFirst
  rw [mem_foldl_dedup]
  simp

/-- C7, amended: when a recognized lab pattern matches the lowercased
question, the (stripped) matched keyword itself is always among the
extracted candidates, and its singular form is additionally among them
whenever the matched keyword is a plural form, i.e. ends in s with length
greater than 3; a non-plural match contributes only itself. -/
theorem extract_lab_keywords_emits_match (question : String) (p : String × Bool)
    (hp : p ∈ labPatterns) (kw : String)
    (hm : labSearch p.1 p.2 (lowerStr question).data = some kw) :
    stripStr kw ∈ extractLabKeywords question
    ∧ ((strEndsWith (stripStr kw) "s" && decide (3 < (stripStr kw).length)) = true →
        String.mk (stripStr kw).data.dropLast ∈ extractLabKeywords question) := by
  have hfor : ∀ x ∈ labKeywordsFor (lowerStr question).data p,
      x ∈ extractLabKeywords question := by
    intro x hx
    unfold extractLabKeywords
    rw [mem_dedupKeepFirst, List.mem_flatten]
    exact ⟨labKeywordsFor (lowerStr question).data p,
      List.mem_map_of_mem _ hp, hx⟩
  constructor
  · apply hfor
    unfold labKeywordsFor
    rw [hm]
    exact List.mem_append_right _ (by simp)
  · intro hplural
    apply hfor
    unfold labKeywordsFor
    rw [hm]
    apply List.mem_append_left
    simp only [hplural, if_true]
    simp

/-- C7 counterexample: the question containing only the singular recognized
term cholesterol matches its pattern, but the extraction emits only the
matched singular - the plural form is absent, refuting that both singular
and plural forms are emitted for every matched term. -/
theorem extract_lab_keywords_no_plural_counterexample :
    labSearch "cholesterol" false (lowerStr "cholesterol").data = some "cholesterol"
    ∧ extractLabKeywords "cholesterol" = ["cholesterol"]
    ∧ "cholesterols" ∉ extractLabKeywords "cholesterol" := by
  refine ⟨by decide, by decide, by decide⟩

theorem extract_lab_keywords_emits_match_witness :
    stripStr "triglycerides" ∈ extractLabKeywords "list all triglycerides"
    ∧ String.mk (stripStr "triglycerides").data.dropLast
        ∈ extractLabKeywords "list all triglycerides" := by
  have h := extract_lab_keywords_emits_match "list all triglycerides"
    ("triglyceride", true) (by decide) "triglycerides" (by decide)
  exact ⟨h.1, h.2 (by decide)⟩

/-! ### Hybrid search trigger (rag.py lines 213-225) -/

/-- Match of the word-bounded pattern last-whitespace-digits at the current
position. -/
def matchLastNum (s : List Char) : Bool :=
  "last".data.isPrefixOf s &&
    (let r := s.drop 4
     !(r.takeWhile isSpaceChar).isEmpty &&
       (match r.dropWhile isSpaceChar with
        | c :: _ => c.isDigit
        | [] => false))

/-- Match of the word-bounded alternation all/every/each followed by
whitespace. -/
def matchAllEveryEach (s : List Char) : Bool :=
  (["all", "every", "each"] : List String).any fun w =>
    w.data.isPrefixOf s &&
      (match s.drop w.data.length with
       | c :: _ => isSpaceChar c
       | [] => false)

/-- Match of the word-bounded literal how many. -/
def matchHowMany (s : List Char) : Bool := "how many".data.isPrefixOf s

/-- Match of the word-bounded list followed by whitespace. -/
def matchListSpace (s : List Char) : Bool :=
  "list".data.isPrefixOf s &&
    (match s.drop 4 with
     | c :: _ => isSpaceChar c
     | [] => false)

/-- Leftmost scan of a position matcher over the input, tracking whether the
previous character is a word character so that the leading word boundary of
each pattern is honoured. -/
def scanMatch (m : List Char → Bool) : Bool → List Char → Bool
  | _, [] => false
  | prevWord, c :: rest =>
    (!prevWord && m (c :: rest)) || scanMatch m (isWordChar c) rest

/-- Hybrid-search trigger: _needs_hybrid_search (rag.py lines 213-225). -/
def needsHybridSearch (question : String) : Bool :=
  scanMatch matchLastNum false (lowerStr question).data
    || scanMatch matchAllEveryEach false (lowerStr question).data
    || scanMatch matchHowMany false (lowerStr question).data
    || scanMatch matchListSpace false (lowerStr question).data

/-- Python max with a length key over a list: the first element of maximal
length (later elements replace the current maximum only when strictly
longer); the default is returned for an empty list, which never occurs in
the orchestrator because the keyword list is checked to be nonempty. -/
def maxByLen (l : List String) (dflt : String) : String :=
  match l with
  | [] => dflt
  | x :: xs => xs.foldl (fun best w => if best.length < w.length then w else best) x

/-! ### External collaborators and message data (spec section 6) -/

/-- One chat message sent to the completion interface. -/
structure Message where
  role : String
  content : String
deriving DecidableEq

/-- A completion request: model identifier, temperature, output-token budget
and ordered message list. The streaming flag of the API is modelled by the
choice between the two Env completion functions. -/
structure CompletionRequest where
  model : String
  temperature : ℚ
  max_tokens : Nat
  messages : List Message
deriving DecidableEq

/-- RagLogEntry (spec section 3, rag_log table columns of
src/backend/app/repositories/rag_log.py). The timestamp column, defaulted to
the wall clock by the repository, is not modelled; no claim touches it. -/
structure RagLogEntry where
  session_id : String
  patient_id : String
  user_query : String
  response : String
  chunks_extracted : String
  latency : Option ℚ
deriving DecidableEq

/-- Deterministic environment bundling every external collaborator of the
service: the patient-chunk repository operations (patient_chunks.py), the
completion and embedding clients, the log repository state, uuid generation,
the datetime parsing/formatting of _add_temporal_context, the fixed-point
float rendering of _format_chunks_for_logging, and the measured latency.
Claims about the orchestrator hold for every such environment. -/
structure Env where
  embed : String → List ℚ
  searchSimilar : String → List ℚ → Nat → ℚ → Nat → List Chunk
  searchKeyword : String → String → Nat → List Chunk
  fetchByDocuments : String → List String → Nat → List Chunk
  fetchRecent : String → Nat → List Chunk
  complete : CompletionRequest → String
  completeStream : CompletionRequest → List String
  hasLogRepo : Bool
  ragLogTableExists : Bool
  dbInsertRagLog : RagLogEntry → Except String Unit
  genSessionId : String
  formatRefTime : String → String
  formatFloat4 : ℚ → String
  elapsedSeconds : ℚ

/-! ### Prompts and message assembly (rag.py lines 23-95, 496-655, 722-829) -/

/-- SYSTEM_PROMPT of rag.py lines 23-64 (dedented and stripped; internal
indentation normalized - no claim depends on the prompt wording). -/
def SYSTEM_PROMPT : String := joinSep "\n"
  ["You are Radian, a clinical insights assistant supporting physicians.",
   "You must respond using ONLY the patient data provided in the current context.",
   "Do not use general medical knowledge or assumptions beyond the supplied data.",
   "",
   "Your role is to:",
   "- Surface observations, trends, patterns, and monitoring-relevant signals",
   "- Highlight changes over time with dates and values when available",
   "- Comment on medication adherence or continuity when documented",
   "- Identify areas that may warrant closer review or follow-up (without clinical judgment)",
   "",
   "CRITICAL: Data Extraction Requirements:",
   "- Read through ALL provided document chunks thoroughly and completely",
   "- Extract ALL numerical values, dates, lab results, measurements, and test values from the context",
   "- Values may appear in various formats: tables, lists, paragraphs, or structured data",
   "- When searching for specific dates, be flexible with date formats (e.g., \"Nov 21, 2025\", \"2025-11-21\", \"November 21, 2025\", \"11/21/2025\")",
   "- Do NOT state that data is missing until you have carefully examined every chunk for the requested information",
   "- Report ALL matching values found, not just the first one encountered",
   "",
   "Strict constraints:",
   "- Do NOT make diagnoses, differential diagnoses, or treatment recommendations",
   "- Do NOT use language implying clinical conclusions (e.g., \"suggestive of\", \"indicates\", \"likely\")",
   "- Do NOT infer missing data - but DO thoroughly extract all data that exists in the context",
   "",
   "If information is incomplete or unavailable AFTER thorough examination:",
   "- Explicitly state what data is missing",
   "- Explain how that limits interpretation",
   "",
   "When referencing data:",
   "- Anchor statements to timeframes (e.g., \"over the last 3 months\", \"most recent value on <date>\")",
   "- Include exact values, dates, and units when available",
   "- Prefer objective sources in this order when available:",
   "1. Vitals and labs",
   "2. Medication records",
   "3. Clinical notes",
   "4. Patient-reported information",
   "",
   "Use clear, clinician-facing language.",
   "Be concise, factual, and neutral."]

/-- The single chat prompt _get_chat_prompt returns (rag.py lines 611-635):
every specialised branch of the function is commented out in the source, so
the lowercased question is computed and discarded and this constant is
returned on every path. -/
def chatPromptText : String := joinSep "\n"
  ["Answer the physician\x27s question using the patient context provided.",
   "",
   "CRITICAL INSTRUCTIONS FOR DATA EXTRACTION:",
   "- Carefully read through ALL provided document chunks completely and thoroughly",
   "- Extract ALL numerical values, dates, lab results, and measurements from the context",
   "- Look for values even if they appear in tables, lists, paragraphs, or various formats",
   "- Values may appear in different chunks than their associated dates - search across ALL chunks",
   "- When a date is mentioned, search ALL chunks for the corresponding numerical value, even if it\x27s not in the same chunk as the date",
   "- When searching for specific dates, check all date formats (e.g., \"Nov 21, 2025\", \"2025-11-21\", \"November 21, 2025\", \"11/21/2025\", \"Sep 25\", \"September 25\")",
   "- Do NOT assume data is missing - thoroughly examine every chunk before concluding information is unavailable",
   "- If multiple values exist for the same metric, extract and report ALL of them, sorted by date (most recent first)",
   "- For queries asking for \"last N results\", find ALL matching values across all chunks and sort them by date",
   "",
   "IMPORTANT: When chunks contain dates but no values, the values may be in adjacent chunks from the same document.",
   "Always check all chunks from documents that contain relevant dates or keywords.",
   "",
   "Provide factual, concise answers based on the medical records.",
   "Include specific values, dates, and measurements when available in the context.",
   "If the information is truly not in the context after thorough examination, state that clearly.",
   "Use clear, clinical language.",
   "Be concise, factual, and neutral."]

/-- Chat prompt selection (rag.py lines 496-635): the lowercased question is
computed and discarded, and the same constant is returned on every path. -/
def getChatPrompt (question : String) : String :=
  let _question_lower := lowerStr question
  chatPromptText

/-- Hidden system-context metadata string (rag.py lines 735-739). -/
def contextMetadata (ctx : SystemContext) : String :=
  "\n[System Context: mode=" ++ ctx.context_mode ++ ", scope=" ++ ctx.patient_scope
    ++ ", reference_time=" ++ ctx.reference_time ++ "]"

/-- Temporal-anchoring instruction (rag.py lines 642-653) built from the
formatted reference date. -/
def temporalInstruction (refDate : String) : String := joinSep "\n"
  ["TEMPORAL CONTEXT (CRITICAL):",
   "- Reference time: " ++ refDate,
   "- When using terms like \"most recent\", \"latest\", \"last\", or \"recent\",",
   "  these MUST be relative to the reference time above.",
   "- Do NOT use data points that are newer than the reference time.",
   "- Always anchor temporal statements to the reference time",
   "  (e.g., \"most recent value as of " ++ refDate ++ "\").",
   "- If asked about \"current\" status, interpret this as \"as of " ++ refDate ++ "\"."]

/-- _add_temporal_context (rag.py lines 637-655); the datetime parsing and
strftime rendering of the ISO reference time is the deterministic pure
stdlib function Env.formatRefTime. -/
def addTemporalContext (env : Env) (prompt : String) (ctx : SystemContext) : String :=
  prompt ++ "\n\n" ++ temporalInstruction (env.formatRefTime ctx.reference_time)

/-- Message construction shared verbatim by _chat_completion (rag.py lines
722-759) and _chat_completion_stream (lines 792-829): system prompt, the
patient context unless falsy or equal to the no-context sentinel, the task
prompt, the history in order, and the question when truthy. -/
def buildChatMessages (context : String) (prompt : String)
    (question : Option String) (history : List ChatMessage)
    (ctx : SystemContext) : List Message :=
  [⟨"system", SYSTEM_PROMPT⟩]
    ++ (if context ≠ "" ∧ context ≠ noContextSentinel then
          [⟨"system", "Patient Context:\n" ++ context ++ contextMetadata ctx⟩]
        else [])
    ++ [⟨"system", prompt⟩]
    ++ history.map (fun m => (⟨m.role, m.content⟩ : Message))
    ++ (match question with
        | some q => if q ≠ "" then [⟨"user", q⟩] else []
        | none => [])

/-- Output-token budget (rag.py lines 756-759 and 826-829): 1500 for a chat
call (a question or history argument was passed), 400 for a summary call. -/
def chatMaxTokens (question : Option String) (history : Option (List ChatMessage)) : Nat :=
  if question ≠ none ∨ history ≠ none then 1500 else 400

/-! ### Retrieval orchestrator (rag.py lines 349-494 and 896-1016; the
retrieval control flow is duplicated verbatim in answer_question and
answer_question_stream, so each stage below is cited with both line
ranges) -/

/-- Final chunk budget of a chat request (rag.py lines 362 and 909). -/
def chatChunkLimit (S : Settings) : Nat := S.max_retrieval_chunks_chat

/-- Retrieval limit: the re-ranking candidate pool size when re-ranking is
enabled, else the final budget (rag.py lines 365-369 and 912-916). -/
def chatRetrievalLimit (S : Settings) : Nat :=
  if S.rerank_enabled then S.rerank_top_n else S.max_retrieval_chunks_chat

/-- Primary vector search (rag.py lines 372-381 and 919-928): the question is
embedded once, then a patient-scoped similarity search runs at the retrieval
limit with the chat-specific similarity floor and the configured probes. -/
def vectorChunks (S : Settings) (env : Env) (patient question : String) : List Chunk :=
  env.searchSimilar patient (env.embed question) (chatRetrievalLimit S)
    S.min_similarity_score_chat S.ivfflat_probes

/-- Merge that appends only chunks whose chunk_id is not already present:
the chunk_ids_seen loop of the hybrid augmentation (rag.py lines 396-401,
413-417 and 941-945, 955-958). The seen set always equals the id set of the
accumulated list, so it is recomputed from the base at each step. -/
def appendDedup (base : List Chunk) : List Chunk → List Chunk
  | [] => base
  | c :: rest =>
    if c.chunk_id ∈ base.map Chunk.chunk_id then appendDedup base rest
    else appendDedup (base ++ [c]) rest

/-- Unique document ids of the keyword hits (rag.py lines 405 and 947). The
source uses list(set(...)), whose iteration order is unspecified and only
feeds a set-scoped SQL filter; the embedding fixes first-seen order. -/
def keywordDocumentIds (keywordChunks : List Chunk) : List String :=
  dedupKeepFirst (keywordChunks.map Chunk.document_id)

/-- Merge-and-cap core of the hybrid augmentation: vector hits, then unseen
keyword hits, then (when any document id was found) unseen related-document
chunks, truncated to the cap when oversized (rag.py lines 396-421 and
941-961). -/
def mergeAndCap (vec kw rel : List Chunk) (useRel : Bool) (cap : Nat) : List Chunk :=
  if cap < (if useRel then appendDedup (appendDedup vec kw) rel
            else appendDedup vec kw).length then
    (if useRel then appendDedup (appendDedup vec kw) rel
     else appendDedup vec kw).take cap
  else
    (if useRel then appendDedup (appendDedup vec kw) rel
     else appendDedup vec kw)

/-- Hybrid augmentation (rag.py lines 383-421 and 930-961): when the trigger
fires and a lab keyword was extracted, the longest keyword drives a keyword
search at twice the chunk limit, results and related-document chunks are
merged with dedup by chunk_id, and the total is capped at twice the
retrieval limit; otherwise the vector hits pass through. -/
def hybridChunks (S : Settings) (env : Env) (patient question : String) : List Chunk :=
  if needsHybridSearch question = true ∧ extractLabKeywords question ≠ [] then
    mergeAndCap (vectorChunks S env patient question)
      (env.searchKeyword patient (maxByLen (extractLabKeywords question) "")
        (chatChunkLimit S * 2))
      (env.fetchByDocuments patient
        (keywordDocumentIds
          (env.searchKeyword patient (maxByLen (extractLabKeywords question) "")
            (chatChunkLimit S * 2))) 5)
      (decide (keywordDocumentIds
        (env.searchKeyword patient (maxByLen (extractLabKeywords question) "")
          (chatChunkLimit S * 2)) ≠ []))
      (chatRetrievalLimit S * 2)
  else vectorChunks S env patient question

/-- Recency fallback (rag.py lines 423-424 and 963-964): an empty chunk set
is replaced by the most recent chunks at the retrieval limit. -/
def postFallbackChunks (S : Settings) (env : Env) (patient question : String) : List Chunk :=
  if hybridChunks S env patient question = [] then
    env.fetchRecent patient (chatRetrievalLimit S)
  else hybridChunks S env patient question

/-- Re-ranking application (rag.py lines 427-428 and 967-968): applied only
when enabled and the chunk set is nonempty, with top_k the final budget. -/
noncomputable def finalChunks (S : Settings) (env : Env) (patient question : String) : List Chunk :=
  if S.rerank_enabled = true ∧ postFallbackChunks S env patient question ≠ [] then
    rerankChunks S (postFallbackChunks S env patient question) question (chatChunkLimit S)
  else postFallbackChunks S env patient question

/-- The completion request both orchestrators assemble (rag.py lines 450-462
and 970-984): the formatted context, the temporal-anchored chat prompt, the
question and history, sent at temperature 0.2 with the chat token budget to
the configured model. -/
noncomputable def chatRequest (S : Settings) (env : Env) (patient question : String)
    (history : List ChatMessage) (ctx : SystemContext) : CompletionRequest :=
  { model := S.openai_model
    temperature := 1/5
    max_tokens := chatMaxTokens (some question) (some history)
    messages := buildChatMessages (formatChunks (finalChunks S env patient question))
      (addTemporalContext env (getChatPrompt question) ctx) (some question) history ctx }

/-! ### Query logging (rag_log.py and rag.py lines 464-494, 988-1016) -/

/-- One audit block of _format_chunks_for_logging (rag.py lines 1063-1087):
metadata lines (document, optional page, chunk index, similarity rendered by
the fixed-point formatter) followed by the text. -/
def formatLogBlock (env : Env) (chunk : Chunk) : String :=
  joinSep "\n"
    ((if chunk.file_name = none ∨ chunk.file_name = some "" then
        ["Document ID: " ++ chunk.document_id]
      else ["Document: " ++ stripDocExtension (chunk.file_name.getD "")])
      ++ (match chunk.page_number with
          | some p => ["Page: " ++ toString p]
          | none => [])
      ++ (match chunk.chunk_index with
          | some i => ["Chunk Index: " ++ toString i]
          | none => [])
      ++ (match chunk.similarity with
          | some s => ["Similarity: " ++ env.formatFloat4 s]
          | none => []))
    ++ "\n" ++ chunk.text.getD ""

/-- Audit formatting: _format_chunks_for_logging (rag.py lines 1057-1090),
blocks joined by the four-dash delimiter, with its own sentinel. -/
def formatChunksForLogging (env : Env) (chunks : List Chunk) : String :=
  if (chunks.filter hasRealText).map (formatLogBlock env) = [] then
    "No chunks retrieved"
  else joinSep "\n----\n" ((chunks.filter hasRealText).map (formatLogBlock env))

/-- Effective session id (rag.py lines 472-476 and 996-1000): a falsy session
id is replaced by a generated auto id. -/
def effectiveSessionId (env : Env) (sid : Option String) : String :=
  match sid with
  | none => env.genSessionId
  | some s => if s = "" then env.genSessionId else s

/-- RagLogRepository.log_rag_query (rag_log.py lines 26-85): the table-exists
check short-circuits to a logged error, the insert runs, and the surrounding
try/except swallows every failure - the coroutine never raises. -/
def logRagQuery (env : Env) (entry : RagLogEntry) : Except String Unit :=
  if env.ragLogTableExists = false then Except.ok ()
  else
    match env.dbInsertRagLog entry with
    | Except.ok _ => Except.ok ()
    | Except.error _ => Except.ok ()

/-- The log entry the orchestrators record (rag.py lines 478-488 and
1002-1012). -/
noncomputable def chatLogEntry (S : Settings) (env : Env) (patient question : String)
    (response : String) (sid : Option String) : RagLogEntry :=
  { session_id := effectiveSessionId env sid
    patient_id := patient
    user_query := question
    response := response
    chunks_extracted := formatChunksForLogging env (finalChunks S env patient question)
    latency := some env.elapsedSeconds }

/-- Blocking question answering: answer_question (rag.py lines 349-494).
After the completion call the log write is attempted when a log repository
is configured, inside try/except - both outcomes return the message. -/
noncomputable def answerQuestion (S : Settings) (env : Env) (patient question : String)
    (history : List ChatMessage) (ctx : SystemContext) (sid : Option String) : String :=
  if env.hasLogRepo then
    match logRagQuery env (chatLogEntry S env patient question
        (env.complete (chatRequest S env patient question history ctx)) sid) with
    | Except.ok _ => env.complete (chatRequest S env patient question history ctx)
    | Except.error _ => env.complete (chatRequest S env patient question history ctx)
  else env.complete (chatRequest S env patient question history ctx)

/-- Observable events of the streaming generator. -/
inductive StreamEvent where
  | chunkOut (s : String)
  | logWrite (entry : RagLogEntry) (result : Except String Unit)
  | logSkipped

/-- The single post-stream step of answer_question_stream (rag.py lines
988-1016): the log write of the accumulated full response, or a skip when no
log repository is configured. -/
noncomputable def streamFinalEvent (S : Settings) (env : Env) (patient question : String)
    (history : List ChatMessage) (ctx : SystemContext) (sid : Option String) : StreamEvent :=
  if env.hasLogRepo then
    StreamEvent.logWrite
      (chatLogEntry S env patient question
        ((env.completeStream (chatRequest S env patient question history ctx)).foldl
          (· ++ ·) "") sid)
      (logRagQuery env
        (chatLogEntry S env patient question
          ((env.completeStream (chatRequest S env patient question history ctx)).foldl
            (· ++ ·) "") sid))
  else StreamEvent.logSkipped

/-- Streaming question answering: answer_question_stream (rag.py lines
896-1016) as its event trace: the fragments yielded in order while
full_response accumulates via concatenation, followed by the single logging
step performed only after the generator is exhausted. -/
noncomputable def answerQuestionStream (S : Settings) (env : Env) (patient question : String)
    (history : List ChatMessage) (ctx : SystemContext) (sid : Option String) : List StreamEvent :=
  ((env.completeStream (chatRequest S env patient question history ctx)).map
    StreamEvent.chunkOut)
    ++ [streamFinalEvent S env patient question history ctx sid]

/-! ### Theorems about the orchestrator -/

/-- Whatever the logging outcome, the blocking orchestrator returns the model
completion of the request it assembled. -/
theorem answerQuestion_eq_complete (S : Settings) (env : Env)
    (patient question : String) (history : List ChatMessage)
    (ctx : SystemContext) (sid : Option String) :
    answerQuestion S env patient question history ctx sid
      = env.complete (chatRequest S env patient question history ctx) := by
  unfold answerQuestion
  by_cases h : env.hasLogRepo = true
  · rw [if_pos h]
    cases logRagQuery env (chatLogEntry S env patient question
      (env.complete (chatRequest S env patient question history ctx)) sid) <;> rfl
  · rw [if_neg h]

/-- C3: when vector search plus optional hybrid augmentation produces no
chunks, the orchestrator substitutes the most recent chunks fetched at the
retrieval limit before re-ranking and assembly, and still proceeds to the
completion call and returns its answer - the empty result is absorbed, not
raised. -/
theorem empty_retrieval_falls_back_to_recency (S : Settings) (env : Env)
    (patient question : String) (history : List ChatMessage)
    (ctx : SystemContext) (sid : Option String)
    (h : hybridChunks S env patient question = []) :
    postFallbackChunks S env patient question
      = env.fetchRecent patient (chatRetrievalLimit S)
    ∧ finalChunks S env patient question
      = (if S.rerank_enabled = true
            ∧ env.fetchRecent patient (chatRetrievalLimit S) ≠ [] then
          rerankChunks S (env.fetchRecent patient (chatRetrievalLimit S))
            question (chatChunkLimit S)
        else env.fetchRecent patient (chatRetrievalLimit S))
    ∧ answerQuestion S env patient question history ctx sid
      = env.complete (chatRequest S env patient question history ctx) := by
  have h1 : postFallbackChunks S env patient question
      = env.fetchRecent patient (chatRetrievalLimit S) := by
    unfold postFallbackChunks
    rw [if_pos h]
  refine ⟨h1, ?_, answerQuestion_eq_complete S env patient question history ctx sid⟩
  unfold finalChunks
  rw [h1]

/-- Concrete context record for witnesses. -/
def sampleCtx : SystemContext :=
  { context_mode := "rag", patient_scope := "locked",
    reference_time := "2025-01-01T00:00:00Z" }

/-- Environment whose searches find nothing and whose recency fetch returns
one chunk; the model is a constant whose stream joins to its blocking
answer. -/
def emptyStoreEnv : Env :=
  { embed := fun _ => []
    searchSimilar := fun _ _ _ _ _ => []
    searchKeyword := fun _ _ _ => []
    fetchByDocuments := fun _ _ _ => []
    fetchRecent := fun _ _ => [chunkA]
    complete := fun _ => "answer"
    completeStream := fun _ => ["ans", "wer"]
    hasLogRepo := true
    ragLogTableExists := true
    dbInsertRagLog := fun _ => Except.ok ()
    genSessionId := "auto-1"
    formatRefTime := fun s => s
    formatFloat4 := fun _ => "0.0000"
    elapsedSeconds := 1 }

theorem empty_retrieval_falls_back_witness :
    postFallbackChunks defaultSettings emptyStoreEnv "p" "what"
      = emptyStoreEnv.fetchRecent "p" (chatRetrievalLimit defaultSettings)
    ∧ finalChunks defaultSettings emptyStoreEnv "p" "what"
      = (if defaultSettings.rerank_enabled = true
            ∧ emptyStoreEnv.fetchRecent "p" (chatRetrievalLimit defaultSettings) ≠ [] then
          rerankChunks defaultSettings
            (emptyStoreEnv.fetchRecent "p" (chatRetrievalLimit defaultSettings))
            "what" (chatChunkLimit defaultSettings)
        else emptyStoreEnv.fetchRecent "p" (chatRetrievalLimit defaultSettings))
    ∧ answerQuestion defaultSettings emptyStoreEnv "p" "what" [] sampleCtx none
      = emptyStoreEnv.complete
          (chatRequest defaultSettings emptyStoreEnv "p" "what" [] sampleCtx) :=
  empty_retrieval_falls_back_to_recency defaultSettings emptyStoreEnv "p" "what"
    [] sampleCtx none (by decide)

/-! ### Dedup-merge invariants (C9) -/

theorem appendDedup_extends (new : List Chunk) :
    ∀ base : List Chunk, base <+: appendDedup base new := by
  induction new with
  | nil => intro base; exact List.prefix_rfl
  | cons c rest ih =>
    intro base
    unfold appendDedup
    by_cases hc : c.chunk_id ∈ base.map Chunk.chunk_id
    · rw [if_pos hc]
      exact ih base
    · rw [if_neg hc]
      exact (List.prefix_append base [c]).trans (ih (base ++ [c]))

theorem appendDedup_nodup (new : List Chunk) :
    ∀ base : List Chunk, ((base.map Chunk.chunk_id).Nodup) →
      ((appendDedup base new).map Chunk.chunk_id).Nodup := by
  induction new with
  | nil => intro base h; exact h
  | cons c rest ih =>
    intro base h
    unfold appendDedup
    by_cases hc : c.chunk_id ∈ base.map Chunk.chunk_id
    · rw [if_pos hc]
      exact ih base h
    · rw [if_neg hc]
      apply ih
      rw [List.map_append]
      rw [List.nodup_append]
      exact ⟨h, List.nodup_singleton _, by simpa using hc⟩

/-- Invariants of the merge-and-cap core: when the vector hits have distinct
chunk ids and fit under the cap, they survive as a prefix in order, and the
merged (capped) list keeps chunk ids pairwise distinct. -/
theorem mergeAndCap_invariants (vec kw rel : List Chunk) (useRel : Bool)
    (cap : Nat) (hnd : (vec.map Chunk.chunk_id).Nodup) (hlen : vec.length ≤ cap) :
    vec <+: mergeAndCap vec kw rel useRel cap
    ∧ ((mergeAndCap vec kw rel useRel cap).map Chunk.chunk_id).Nodup := by
  have hpre : vec <+: (if useRel then appendDedup (appendDedup vec kw) rel
      else appendDedup vec kw) := by
    cases useRel with
    | true =>
      rw [if_pos rfl]
      exact (appendDedup_extends kw vec).trans (appendDedup_extends rel _)
    | false =>
      rw [if_neg Bool.false_ne_true]
      exact appendDedup_extends kw vec
  have hnd2 : ((if useRel then appendDedup (appendDedup vec kw) rel
      else appendDedup vec kw).map Chunk.chunk_id).Nodup := by
    cases useRel with
    | true =>
      rw [if_pos rfl]
      exact appendDedup_nodup rel _ (appendDedup_nodup kw vec hnd)
    | false =>
      rw [if_neg Bool.false_ne_true]
      exact appendDedup_nodup kw vec hnd
  unfold mergeAndCap
  by_cases hcap : cap < (if useRel then appendDedup (appendDedup vec kw) rel
      else appendDedup vec kw).length
  · rw [if_pos hcap]
    constructor
    · rw [List.prefix_take_iff]
      exact ⟨hpre, hlen⟩
    · rw [List.map_take]
      exact (List.take_sublist _ _).nodup hnd2
  · rw [if_neg hcap]
    exact ⟨hpre, hnd2⟩

/-- C9: assuming the vector-search hits carry pairwise-distinct chunk ids and
the store honours the retrieval limit, the hybrid-augmented candidate list
keeps the vector hits as a prefix in their original order, has
pairwise-distinct chunk ids, and the cap at twice the retrieval limit never
drops a vector hit. -/
theorem hybrid_merge_preserves_vector_prefix (S : Settings) (env : Env)
    (patient question : String)
    (hnd : ((vectorChunks S env patient question).map Chunk.chunk_id).Nodup)
    (hlen : (vectorChunks S env patient question).length ≤ chatRetrievalLimit S) :
    vectorChunks S env patient question <+: hybridChunks S env patient question
    ∧ ((hybridChunks S env patient question).map Chunk.chunk_id).Nodup := by
  unfold hybridChunks
  by_cases htrig : needsHybridSearch question = true ∧ extractLabKeywords question ≠ []
  · rw [if_pos htrig]
    exact mergeAndCap_invariants _ _ _ _ _ hnd (by omega)
  · rw [if_neg htrig]
    exact ⟨List.prefix_rfl, hnd⟩

/-- Chunks used by the hybrid-merge witness. -/
def vecChunk : Chunk :=
  { chunk_id := "v1", document_id := "dv", patient_id := "p",
    file_name := none, page_number := none, chunk_index := none,
    text := some "triglycerides 150", similarity := some (1/2) }

def kwChunk : Chunk :=
  { chunk_id := "k1", document_id := "dk", patient_id := "p",
    file_name := none, page_number := none, chunk_index := none,
    text := some "triglycerides 180" }

def relChunk : Chunk :=
  { chunk_id := "r1", document_id := "dk", patient_id := "p",
    file_name := none, page_number := none, chunk_index := none,
    text := some "collected 2024-11-21" }

/-- Environment for the hybrid-merge witness: one vector hit, one keyword
hit, one related chunk. -/
def hybridEnv : Env :=
  { emptyStoreEnv with
    searchSimilar := fun _ _ _ _ _ => [vecChunk]
    searchKeyword := fun _ _ _ => [kwChunk]
    fetchByDocuments := fun _ _ _ => [relChunk] }

theorem hybrid_merge_preserves_vector_prefix_witness :
    vectorChunks defaultSettings hybridEnv "p" "list all triglycerides"
      <+: hybridChunks defaultSettings hybridEnv "p" "list all triglycerides"
    ∧ ((hybridChunks defaultSettings hybridEnv "p" "list all triglycerides").map
        Chunk.chunk_id).Nodup :=
  hybrid_merge_preserves_vector_prefix defaultSettings hybridEnv "p"
    "list all triglycerides" (by decide) (by decide)

/-! ### Logging robustness (C8) and the streaming refinement (C2) -/

/-- C8: a failure of the log sink while recording the RagLogEntry neither
alters the answer returned by answer_question nor reaches the caller: the
answer under a failing insert equals the answer under a succeeding insert,
and both equal the model completion. Propagation is impossible by
construction: the embedding of the two nested try/except layers
(log_rag_query and the orchestrator) is a total function into String. -/
theorem log_failure_does_not_alter_answer (S : Settings) (env : Env)
    (patient question : String) (history : List ChatMessage)
    (ctx : SystemContext) (sid : Option String) (e : String) :
    answerQuestion S { env with dbInsertRagLog := fun _ => Except.error e }
        patient question history ctx sid
      = answerQuestion S { env with dbInsertRagLog := fun _ => Except.ok () }
          patient question history ctx sid
    ∧ answerQuestion S { env with dbInsertRagLog := fun _ => Except.error e }
        patient question history ctx sid
      = env.complete (chatRequest S env patient question history ctx) := by
  have h1 := answerQuestion_eq_complete S
    { env with dbInsertRagLog := fun _ => Except.error e }
    patient question history ctx sid
  have h2 := answerQuestion_eq_complete S
    { env with dbInsertRagLog := fun _ => Except.ok () }
    patient question history ctx sid
  exact ⟨h1.trans h2.symm, h1⟩

/-- C2: with a deterministic model whose streamed fragments concatenate to
its blocking completion, and the deterministic store of the environment, the
streaming orchestrator emits exactly the model fragments in order followed
by the single post-stream log event, and the concatenation of the fragments
equals the blocking answer of answer_question. -/
theorem answer_stream_concat_eq_blocking (S : Settings) (env : Env)
    (patient question : String) (history : List ChatMessage)
    (ctx : SystemContext) (sid : Option String)
    (hdet : String.join (env.completeStream
        (chatRequest S env patient question history ctx))
      = env.complete (chatRequest S env patient question history ctx)) :
    answerQuestionStream S env patient question history ctx sid
      = ((env.completeStream (chatRequest S env patient question history ctx)).map
          StreamEvent.chunkOut)
        ++ [streamFinalEvent S env patient question history ctx sid]
    ∧ String.join (env.completeStream (chatRequest S env patient question history ctx))
      = answerQuestion S env patient question history ctx sid := by
  refine ⟨rfl, ?_⟩
  rw [answerQuestion_eq_complete]
  exact hdet

theorem answer_stream_concat_witness :
    answerQuestionStream defaultSettings emptyStoreEnv "p" "what" [] sampleCtx
        (some "s1")
      = ((emptyStoreEnv.completeStream
          (chatRequest defaultSettings emptyStoreEnv "p" "what" [] sampleCtx)).map
            StreamEvent.chunkOut)
        ++ [streamFinalEvent defaultSettings emptyStoreEnv "p" "what" [] sampleCtx
            (some "s1")]
    ∧ String.join (emptyStoreEnv.completeStream
        (chatRequest defaultSettings emptyStoreEnv "p" "what" [] sampleCtx))
      = answerQuestion defaultSettings emptyStoreEnv "p" "what" [] sampleCtx
          (some "s1") :=
  answer_stream_concat_eq_blocking defaultSettings emptyStoreEnv "p" "what" []
    sampleCtx (some "s1") rfl

end RadianRag
